import Mathlib

/-
Verification of the 6502 cycle-accurate model (src/lib.rs) against its
natural-language specification.

The Rust source is embedded shallowly:
  * u8 / u16 values are Nat; where the Rust arithmetic can overflow a u16
    (the unchecked `+` in `decode_op`, which panics in a debug build), the
    embedding takes an explicit overflow branch (`DErr.overflow`).
  * `&mut self` mutation becomes explicit state passing on the `W6502` record.
  * `Result<(), String>` from `tick` becomes `TickOut`: `.ok` for `Ok(())`,
    `.err` (carrying the post-call state and the offending byte) for the
    `Err` return from the unsupported-opcode arm, and `.panic` for the two
    panicking paths (the `assert_eq!` in `decode_op` and u16 overflow).
  * `VecDeque<UOp>` becomes `List UOp` (push_back = append at the tail,
    pop_front = head).
-/

namespace M6502

/-- Registers addressable by micro-ops (`enum Register` in the source). -/
inductive Register where
  | Acc
  | X
  | Y
  | Scratch1
deriving DecidableEq

/-- Address source of a micro-op (`enum Source`): a literal address fixed at
decode time, or a deferred register reference resolved at execution time. -/
inductive Source where
  | Address (v : Nat)
  | RegVal (r : Register)
deriving DecidableEq

/-- Micro-operations (`enum UOp` in the source). -/
inductive UOp where
  | Nop
  | Fetch
  | ResetRegs
  | ReadPC (first : Bool) (addr : Nat)
  | Read (src : Source) (reg : Register)
  | Write (dst : Source) (val : Register)
deriving DecidableEq

/-- Output pins (`struct Outputs`). `data = none` while reading. -/
structure Outputs where
  address : Nat
  data : Option Nat
  rwb : Bool
  sync : Bool
deriving DecidableEq

/-- Input pins (`struct Inputs`). -/
structure Inputs where
  clk : Bool
  n_reset : Bool
  data : Nat
deriving DecidableEq

/-- CPU state (`struct W6502`). -/
structure W6502 where
  outputs : Outputs
  prev_clk : Bool
  queue : List UOp
  active_uop : UOp
  pc : Nat
  acc : Nat
  x : Nat
  y : Nat
  sp : Nat
  flags : Nat
  scratch1 : Nat
deriving DecidableEq

/-- `Outputs::new()`. -/
def Outputs.new : Outputs :=
  { address := 0xFFFF, data := none, rwb := true, sync := false }

/-- `Outputs::zero()`: back to read mode, no outgoing data. -/
def Outputs.zero (o : Outputs) : Outputs :=
  { o with data := none, rwb := true }

/-- `W6502::new()`: the "random" nonzero power-on values from the source. -/
def W6502.new : W6502 :=
  { outputs := Outputs.new, prev_clk := false, queue := [], active_uop := .Nop,
    pc := 0xcafe, acc := 0xAA, x := 0xbc, y := 0xca, sp := 0xfc,
    flags := 0xFF, scratch1 := 0 }

/-- `mut_reg`, read side. -/
def W6502.get_reg (s : W6502) : Register → Nat
  | .Acc => s.acc
  | .X => s.x
  | .Y => s.y
  | .Scratch1 => s.scratch1

/-- `mut_reg`, write side. -/
def W6502.set_reg (s : W6502) : Register → Nat → W6502
  | .Acc, v => { s with acc := v }
  | .X, v => { s with x := v }
  | .Y, v => { s with y := v }
  | .Scratch1, v => { s with scratch1 := v }

/-- `W6502::source`: resolve a `Source` against the current state
(`*self.mut_reg(reg) as u16` is a widening cast, no truncation). -/
def W6502.source (s : W6502) : Source → Nat
  | .Address v => v
  | .RegVal r => s.get_reg r

/-- `W6502::set_addr`. -/
def W6502.set_addr (s : W6502) (v : Nat) : W6502 :=
  { s with outputs := { s.outputs with address := v } }

/-- `W6502::set_data`: present outgoing data and assert write. -/
def W6502.set_data (s : W6502) (v : Nat) : W6502 :=
  { s with outputs := { s.outputs with data := some v, rwb := false } }

/-- Abnormal outcomes of `decode_op`: the `Err` return for an unsupported
opcode, the `assert_eq!(0, self.queue.len())` panic, and the u16 overflow
panic of the unchecked additions (debug build). -/
inductive DErr where
  | unsupported (b : Nat)
  | assertFail
  | overflow
deriving DecidableEq

/-- `W6502::decode_op`: decode an opcode byte at the end of a fetch, fill the
queue with the instruction's remaining micro-ops and advance PC past the
operand bytes.  Each arm's unchecked u16 additions (`self.pc + k`,
`self.pc += len`) are guarded: if the largest of them would exceed 0xFFFF the
arm takes the overflow branch (the Rust debug build panics there). -/
def W6502.decode_op (s : W6502) (opcode : Nat) : Except DErr W6502 :=
  if s.queue.length ≠ 0 then .error .assertFail
  else if opcode = 0x4C then  -- jmp abs
    if s.pc + 3 ≤ 0xFFFF then
      .ok { s with queue := [.ReadPC true (s.pc + 1), .ReadPC false (s.pc + 2)],
                   pc := s.pc + 3 }
    else .error .overflow
  else if opcode = 0x84 then  -- sty zpg
    if s.pc + 2 ≤ 0xFFFF then
      .ok { s with queue := [.Read (.Address (s.pc + 1)) .Scratch1,
                             .Write (.RegVal .Scratch1) .Y],
                   pc := s.pc + 2 }
    else .error .overflow
  else if opcode = 0x85 then  -- sta zpg
    if s.pc + 2 ≤ 0xFFFF then
      .ok { s with queue := [.Read (.Address (s.pc + 1)) .Scratch1,
                             .Write (.RegVal .Scratch1) .Acc],
                   pc := s.pc + 2 }
    else .error .overflow
  else if opcode = 0x86 then  -- stx zpg
    if s.pc + 2 ≤ 0xFFFF then
      .ok { s with queue := [.Read (.Address (s.pc + 1)) .Scratch1,
                             .Write (.RegVal .Scratch1) .X],
                   pc := s.pc + 2 }
    else .error .overflow
  else if opcode = 0xA0 then  -- ldy imm
    if s.pc + 2 ≤ 0xFFFF then
      .ok { s with queue := [.Read (.Address (s.pc + 1)) .Y], pc := s.pc + 2 }
    else .error .overflow
  else if opcode = 0xA2 then  -- ldx immediate
    if s.pc + 2 ≤ 0xFFFF then
      .ok { s with queue := [.Read (.Address (s.pc + 1)) .X], pc := s.pc + 2 }
    else .error .overflow
  else if opcode = 0xA4 then  -- ldy zpg
    if s.pc + 2 ≤ 0xFFFF then
      .ok { s with queue := [.Read (.Address (s.pc + 1)) .Scratch1,
                             .Read (.RegVal .Scratch1) .Y],
                   pc := s.pc + 2 }
    else .error .overflow
  else if opcode = 0xA5 then  -- lda zero page: the source uses Acc itself as scratch
    if s.pc + 2 ≤ 0xFFFF then
      .ok { s with queue := [.Read (.Address (s.pc + 1)) .Acc,
                             .Read (.RegVal .Acc) .Acc],
                   pc := s.pc + 2 }
    else .error .overflow
  else if opcode = 0xA6 then  -- ldx zero page: the source uses X itself as scratch
    if s.pc + 2 ≤ 0xFFFF then
      .ok { s with queue := [.Read (.Address (s.pc + 1)) .X,
                             .Read (.RegVal .X) .X],
                   pc := s.pc + 2 }
    else .error .overflow
  else if opcode = 0xA9 then  -- lda immediate
    if s.pc + 2 ≤ 0xFFFF then
      .ok { s with queue := [.Read (.Address (s.pc + 1)) .Acc], pc := s.pc + 2 }
    else .error .overflow
  else if opcode = 0xEA then  -- nop
    if s.pc + 1 ≤ 0xFFFF then
      .ok { s with queue := [.Nop], pc := s.pc + 1 }
    else .error .overflow
  else .error (.unsupported opcode)

/-- The `match op` block in the body of `tick`: execute the active micro-op
for the current phase (`posedge` true = rising edge work, false = the
falling-phase work that consumes `data`). -/
def W6502.exec_uop (s : W6502) (op : UOp) (posedge : Bool) (data : Nat) :
    Except DErr W6502 :=
  match op with
  | .Nop =>
    -- nop reads past the opcode while stalling
    .ok (s.set_addr s.pc)
  | .Write dst val =>
    .ok ((s.set_addr (s.source dst)).set_data (s.get_reg val))
  | .Fetch =>
    if posedge then .ok (s.set_addr s.pc) else s.decode_op data
  | .Read src reg =>
    if posedge then .ok (s.set_addr (s.source src)) else .ok (s.set_reg reg data)
  | .ResetRegs =>
    .ok s
  | .ReadPC first addr =>
    if posedge then .ok (s.set_addr addr)
    else if first then .ok { s with pc := (s.pc &&& 0xFF00) ||| data }
    else .ok { s with pc := (s.pc &&& 0x00FF) ||| (data <<< 8) }

/-- Result of one `tick` call: `Ok(())`, the `Err` return (with the state the
`&mut self` receiver holds at that return and the offending byte), or a panic. -/
inductive TickOut where
  | ok (s : W6502)
  | err (s : W6502) (b : Nat)
  | panic (e : DErr)
deriving DecidableEq

/-- The queue contents installed by the reset branch of `tick`: six `Nop`
micro-ops then the two reset-vector reads. -/
def resetQueue : List UOp :=
  List.replicate 6 .Nop ++ [.ReadPC true 0xFFFC, .ReadPC false 0xFFFD]

/-- `W6502::tick`. While `n_reset` is low: clear and refill the queue, return
`Ok` at once (note: `prev_clk` and everything else are untouched).  Otherwise
detect the rising edge, start a new micro-op on it (popping the queue, or
starting a `Fetch` with zeroed outputs and `sync` raised when the queue is
empty), run the micro-op for the current phase, and record the clock level —
except on the `Err` path, where the `?` operator skips the
`self.prev_clk = inputs.clk` statement. -/
def W6502.tick (s : W6502) (i : Inputs) : TickOut :=
  if i.n_reset = false then
    .ok { s with queue := resetQueue }
  else
    let posedge := !s.prev_clk && i.clk
    let sel : W6502 × UOp :=
      if posedge then
        match s.queue with
        | op :: rest =>
          ({ s with outputs := { s.outputs with sync := false }, queue := rest }, op)
        | [] =>
          ({ s with outputs := { s.outputs.zero with sync := true } }, .Fetch)
      else
        (s, s.active_uop)
    let s1 : W6502 := { sel.1 with active_uop := sel.2 }
    match s1.exec_uop sel.2 posedge i.data with
    | .ok s2 => .ok { s2 with prev_clk := i.clk }
    | .error (.unsupported b) => .err s1 b
    | .error e => .panic e

/-- Sequence a `TickOut` into a continuation (models `?` on a prior call). -/
def TickOut.next (t : TickOut) (f : W6502 → TickOut) : TickOut :=
  match t with
  | .ok s => f s
  | e => e

/-- `W6502::cycle`: tick with the clock low, then with it high. -/
def W6502.cycle (s : W6502) (i : Inputs) : TickOut :=
  (s.tick { i with clk := false }).next fun s' => s'.tick { i with clk := true }

/-- Drive one full cycle with `n_reset` high, the data bus fed from a fixed
memory environment at the currently driven address (exactly how the trace
harness feeds the model: `data: environment[cpu.outputs().address]`). -/
def stepEnv (env : Nat → Nat) (s : W6502) : TickOut :=
  s.cycle { clk := false, n_reset := true, data := env s.outputs.address }

/-- Iterate `stepEnv`. -/
def runEnv (env : Nat → Nat) : Nat → W6502 → TickOut
  | 0, s => .ok s
  | n + 1, s => (stepEnv env s).next (runEnv env n)

/-- Drive full cycles with `n_reset` held low (as the tests do). -/
def resetCycles : Nat → W6502 → TickOut
  | 0, s => .ok s
  | n + 1, s => (s.cycle { clk := false, n_reset := false, data := 0xca }).next
      (resetCycles n)

/-- Project the state out of a non-panicking `TickOut`. -/
def stateOf : TickOut → Option W6502
  | .ok s => some s
  | .err s _ => some s
  | .panic _ => none

/-- Did `tick` take the `Err` return path? -/
def isErr : TickOut → Bool
  | .err _ _ => true
  | _ => false

/-- Point update of a memory environment. -/
def memUpdate (m : Nat → Nat) (a v : Nat) : Nat → Nat :=
  fun x => if x = a then v else m x

/-- Commit a CPU write to the environment: when the cycle ends with the write
strobe asserted and outgoing data present, the environment stores that byte at
the driven address (an ideal RAM attached to the bus). -/
def commitWrite (s : W6502) (m : Nat → Nat) : Nat → Nat :=
  match s.outputs.rwb, s.outputs.data with
  | false, some v => memUpdate m s.outputs.address v
  | _, _ => m

/-- One cycle against a RAM environment: feed the byte at the currently driven
address, run the cycle, then commit any write the CPU drove. `none` when the
cycle did not return `Ok`. -/
def ramStep (p : W6502 × (Nat → Nat)) : Option (W6502 × (Nat → Nat)) :=
  match p.1.cycle { clk := false, n_reset := true, data := p.2 p.1.outputs.address } with
  | .ok s' => some (s', commitWrite s' p.2)
  | _ => none

/-- A CPU state at the start of a fetch cycle (just after the fetch's rising
edge): empty queue, `Fetch` active, outputs zeroed with `sync` raised and the
address bus driving `pc`. -/
def mkFetch (pc acc x y sp flags scr : Nat) : W6502 :=
  { outputs := { address := pc, data := none, rwb := true, sync := true },
    prev_clk := true, queue := [], active_uop := .Fetch,
    pc := pc, acc := acc, x := x, y := y, sp := sp, flags := flags,
    scratch1 := scr }

/-- The opcode bytes `decode_op` has an arm for. -/
def supported (b : Nat) : Bool :=
  [0x4C, 0x84, 0x85, 0x86, 0xA0, 0xA2, 0xA4, 0xA5, 0xA6, 0xA9, 0xEA].contains b

/-- Documented instruction byte lengths of the supported opcodes. -/
def instrLen (b : Nat) : Nat :=
  if b = 0x4C then 3 else if b = 0xEA then 1 else 2

/-- A micro-op whose execution (either phase, any state, any data byte) leaves
the program counter untouched. -/
def uopKeepsPC (u : UOp) : Prop :=
  ∀ (st : W6502) (ph : Bool) (d : Nat) (s2 : W6502),
    st.exec_uop u ph d = .ok s2 → s2.pc = st.pc

/-- Environment for the reset scenario: the reset vector holds 0xDEAD
(0xAD at 0xFFFC, 0xDE at 0xFFFD). -/
def c1Env : Nat → Nat := fun a =>
  if a = 0xFFFC then 0xAD else if a = 0xFFFD then 0xDE else 0x00

/-- Environment for the reset-during-store scenario: vector points at 0x0200,
where the program is `A9 42 85 10` (LDA #0x42; STA 0x10). -/
def c5Env : Nat → Nat := fun a =>
  if a = 0xFFFC then 0x00 else if a = 0xFFFD then 0x02 else
  if a = 0x200 then 0xA9 else if a = 0x201 then 0x42 else
  if a = 0x202 then 0x85 else if a = 0x203 then 0x10 else 0xEA

/-- Environment holding 0xEA (NOP) at every address. -/
def nopEnv : Nat → Nat := fun _ => 0xEA

/-- Environment whose reset vector is 0xFFFF and that feeds the two-byte
opcode 0xA9 there. -/
def c10Env : Nat → Nat := fun a => if a = 0xFFFF then 0xA9 else 0xFF

/-- Memory for the LDA-zero-page scenario: program `A5 40` at 0x0200 and
0x99 stored at 0x0040. -/
def c6Mem : Nat → Nat := fun a =>
  if a = 0x200 then 0xA5 else if a = 0x201 then 0x40 else
  if a = 0x40 then 0x99 else 0

/-- Memory for the STA/LDA round trip: program `85 z A5 z` at 0x0200. -/
def c9Mem (z : Nat) : Nat → Nat := fun a =>
  if a = 0x200 then 0x85 else if a = 0x201 then z else
  if a = 0x202 then 0xA5 else if a = 0x203 then z else 0

/-- A CPU state at the start of a NOP stall cycle (the `Nop` micro-op just
popped at the rising edge): address bus at `pc`, read mode, `sync` low. -/
def mkNopStall (pc acc x y sp flags scr : Nat) : W6502 :=
  { outputs := { address := pc, data := none, rwb := true, sync := false },
    prev_clk := true, queue := [], active_uop := .Nop,
    pc := pc, acc := acc, x := x, y := y, sp := sp, flags := flags,
    scratch1 := scr }

/-- A concrete state in the middle of a read cycle (a `Read` micro-op active,
rising edge already seen), used to probe repeated-tick behavior. -/
def midRead : W6502 :=
  { outputs := { address := 0x1234, data := none, rwb := true, sync := false },
    prev_clk := true, queue := [], active_uop := .Read (.Address 0x10) .X,
    pc := 0x300, acc := 0, x := 0, y := 0, sp := 0, flags := 0, scratch1 := 0 }

/-- When no rising edge is seen (and reset is high), `tick` pops nothing and
simply runs the falling-phase action of the active micro-op, recording the
clock level on success; the `Err` return skips that recording and leaves the
state exactly as it was. -/
lemma tick_no_posedge (s : W6502) (i : Inputs) (h : i.n_reset = true)
    (hpe : (!s.prev_clk && i.clk) = false) :
    s.tick i =
      match s.exec_uop s.active_uop false i.data with
      | .ok s2 => .ok { s2 with prev_clk := i.clk }
      | .error (.unsupported b) => .err s b
      | .error e => .panic e := by
  obtain ⟨o, pclk, q, a, pc, acc, x, y, sp, fl, scr⟩ := s
  obtain ⟨clk, nr, d⟩ := i
  simp only at h hpe ⊢
  subst h
  cases pclk <;> cases clk
  · rfl
  · simp at hpe
  · rfl
  · rfl

/-- A rising-edge `tick` (reset high) never takes the `Err` return: every
micro-op's rising-phase action succeeds. -/
lemma tick_posedge_not_err (s : W6502) (i : Inputs) (h : i.n_reset = true)
    (hpe : (!s.prev_clk && i.clk) = true) :
    ∀ s' b, s.tick i ≠ .err s' b := by
  obtain ⟨o, pclk, q, a, pc, acc, x, y, sp, fl, scr⟩ := s
  obtain ⟨clk, nr, d⟩ := i
  simp only at h hpe ⊢
  subst h
  cases pclk <;> cases clk
  · exact absurd hpe (by decide)
  · rcases q with _ | ⟨op, rest⟩
    · intro s' b hb
      simp [W6502.tick, W6502.exec_uop, Outputs.zero] at hb
    · cases op <;> intro s' b hb <;>
        simp [W6502.tick, W6502.exec_uop, Outputs.zero] at hb
  · exact absurd hpe (by decide)
  · exact absurd hpe (by decide)

/-- `decode_op` with a nonempty queue trips its queue-empty assertion. -/
lemma decode_nonempty (s : W6502) (d : Nat) (hq : s.queue ≠ []) :
    s.decode_op d = .error .assertFail := by
  rcases hqs : s.queue with _ | ⟨op, rest⟩
  · exact absurd hqs hq
  · simp [W6502.decode_op, hqs]

/-- Decoding a supported opcode never produces the unsupported-opcode error
(it either succeeds or panics on u16 overflow). -/
lemma decode_supported_not_unsupported (s : W6502) (d : Nat)
    (hs : supported d = true) (hq : s.queue = []) :
    ∀ b, s.decode_op d ≠ .error (.unsupported b) := by
  intro b
  simp [supported] at hs
  rcases hs with rfl | rfl | rfl | rfl | rfl | rfl | rfl | rfl | rfl | rfl | rfl <;>
    by_cases hb3 : s.pc + 3 ≤ 0xFFFF <;>
    by_cases hb2 : s.pc + 2 ≤ 0xFFFF <;>
    by_cases hb1 : s.pc + 1 ≤ 0xFFFF <;>
    simp [W6502.decode_op, hq, hb3, hb2, hb1]

/-- Decoding a byte with no decoder arm returns the unsupported-opcode error
(given the queue-empty assertion passes). -/
lemma decode_unsupported (s : W6502) (d : Nat) (hs : supported d = false)
    (hq : s.queue = []) :
    s.decode_op d = .error (.unsupported d) := by
  simp [supported] at hs
  obtain ⟨n1, n2, n3, n4, n5, n6, n7, n8, n9, n10, n11⟩ := hs
  simp [W6502.decode_op, hq, n1, n2, n3, n4, n5, n6, n7, n8, n9, n10, n11]

/-- The falling-phase action of every micro-op other than `Fetch` succeeds. -/
lemma exec_falling_ok_of_ne_fetch (s : W6502) (op : UOp) (d : Nat)
    (hop : op ≠ .Fetch) : ∃ s2, s.exec_uop op false d = .ok s2 := by
  cases op with
  | Fetch => exact absurd rfl hop
  | ReadPC first addr => cases first <;> exact ⟨_, rfl⟩
  | _ => exact ⟨_, rfl⟩

/-- C1: while `n_reset` is low, `tick` clears the queue and refills it with
exactly six `Nop` micro-ops followed by `ReadPC{first:true, addr:0xFFFC}` and
`ReadPC{first:false, addr:0xFFFD}` and returns `Ok` without touching any other
state (first conjunct: the entire rest of the record is unchanged); and in the
concrete run holding reset low for 2 cycles, then releasing with the data bus
supplying 0xAD against address 0xFFFC and 0xDE against 0xFFFD, the first cycle
after the second vector read drives address 0xDEAD with `rwb = 1` and
`sync = 1` (second conjunct: the ninth post-release cycle). -/
theorem c1_reset_queue_and_vector_fetch :
    (∀ (s : W6502) (i : Inputs), i.n_reset = false →
      s.tick i = .ok { s with queue := [.Nop, .Nop, .Nop, .Nop, .Nop, .Nop,
        .ReadPC true 0xFFFC, .ReadPC false 0xFFFD] })
    ∧ (stateOf ((resetCycles 2 W6502.new).next (runEnv c1Env 9))).map W6502.outputs
      = some { address := 0xDEAD, data := none, rwb := true, sync := true } := by
  constructor
  · intro s i h
    simp [W6502.tick, h, resetQueue, List.replicate]
  · decide

/-- Witness for C1 at a concrete state and input. -/
theorem c1_witness :
    W6502.new.tick { clk := false, n_reset := false, data := 0 } =
      .ok { W6502.new with queue := [.Nop, .Nop, .Nop, .Nop, .Nop, .Nop,
        .ReadPC true 0xFFFC, .ReadPC false 0xFFFD] } :=
  c1_reset_queue_and_vector_fetch.1 W6502.new
    { clk := false, n_reset := false, data := 0 } rfl

/-- C2 (bug evidence): drive the model through reset to its first opcode-fetch
cycle (address 0xDEAD, `sync = 1`), then assert `n_reset` for one cycle. The
reset branch of `tick` returns without touching the outputs, so `sync` stays 1
during the reset-held cycle even though that cycle's data byte is never handed
to the decoder — the queue now holds the reset preamble. The claim (and the
`sync` field's own documentation) says `sync` is 0 on every cycle other than
an opcode fetch, including cycles where reset is asserted. -/
theorem c2_sync_stays_raised_while_reset_held :
    (stateOf (((resetCycles 2 W6502.new).next (runEnv c1Env 9)).next
        (fun s => s.cycle { clk := false, n_reset := false, data := 0 }))).map
      (fun s => (s.outputs.sync, s.queue)) = some (true, resetQueue) := by
  decide

/-- C4: `tick` takes the `Err` return if and only if it runs the
falling-phase action of a `Fetch` micro-op (no rising edge, `Fetch` active,
queue empty — the fetch cycle's falling edge under the two-tick driving
discipline) on a data byte that is not a supported opcode; and whenever
`tick` returns that error, the returned byte is the offending data byte and
the post-call state equals the pre-call state exactly — program counter,
registers, queue, and the output pins (which therefore still show the
address = PC and sync = 1 that the fetch's rising edge drove) are all
untouched. -/
theorem c4_err_iff_unsupported_fetch (s : W6502) (i : Inputs) (h : i.n_reset = true) :
    (isErr (s.tick i) = true ↔
      ((!s.prev_clk && i.clk) = false ∧ s.active_uop = .Fetch ∧ s.queue = [] ∧
        supported i.data = false))
    ∧ (∀ (s' : W6502) (b : Nat), s.tick i = .err s' b → s' = s ∧ b = i.data) := by
  by_cases hpe : (!s.prev_clk && i.clk) = true
  · refine ⟨⟨fun he => ?_, fun hr => ?_⟩,
      fun s' b hb => absurd hb (tick_posedge_not_err s i h hpe s' b)⟩
    · rcases ht : s.tick i with s2 | ⟨s2, b⟩ | e
      · rw [ht] at he; simp [isErr] at he
      · exact absurd ht (tick_posedge_not_err s i h hpe s2 b)
      · rw [ht] at he; simp [isErr] at he
    · obtain ⟨hpf, -, -, -⟩ := hr
      rw [hpe] at hpf
      exact Bool.noConfusion hpf
  · have hpe' : (!s.prev_clk && i.clk) = false := by simpa using hpe
    have ht := tick_no_posedge s i h hpe'
    by_cases haf : s.active_uop = .Fetch
    · rw [haf] at ht
      simp only [W6502.exec_uop] at ht
      rcases hq : s.queue with _ | ⟨u0, rest⟩
      · by_cases hs : supported i.data = true
        · cases hd : s.decode_op i.data with
          | error e =>
            cases e with
            | unsupported b =>
              exact absurd hd (decode_supported_not_unsupported s i.data hs hq b)
            | assertFail =>
              rw [hd] at ht; simp at ht
              refine ⟨?_, fun s' b hb => ?_⟩
              · rw [ht]; simp [isErr, hs]
              · rw [ht] at hb; simp at hb
            | overflow =>
              rw [hd] at ht; simp at ht
              refine ⟨?_, fun s' b hb => ?_⟩
              · rw [ht]; simp [isErr, hs]
              · rw [ht] at hb; simp at hb
          | ok s2 =>
            rw [hd] at ht; simp at ht
            refine ⟨?_, fun s' b hb => ?_⟩
            · rw [ht]; simp [isErr, hs]
            · rw [ht] at hb; simp at hb
        · have hs' : supported i.data = false := by simpa using hs
          have hd := decode_unsupported s i.data hs' hq
          rw [hd] at ht; simp at ht
          refine ⟨?_, fun s' b hb => ?_⟩
          · rw [ht]; simp [isErr, hpe', haf, hq, hs']
          · rw [ht] at hb
            injection hb with h1 h2
            exact ⟨h1.symm, h2.symm⟩
      · have hd := decode_nonempty s i.data (by simp [hq])
        rw [hd] at ht; simp at ht
        refine ⟨?_, fun s' b hb => ?_⟩
        · rw [ht]; simp [isErr, hq]
        · rw [ht] at hb; simp at hb
    · obtain ⟨s2, he⟩ := exec_falling_ok_of_ne_fetch s s.active_uop i.data haf
      rw [he] at ht
      refine ⟨?_, fun s' b hb => ?_⟩
      · rw [ht]; simp [isErr, haf]
      · rw [ht] at hb; simp at hb

/-- Witness for C4: a fetch falling edge presenting the unsupported byte 0x00
takes the error path. -/
theorem c4_witness :
    isErr ((mkFetch 0x300 0 0 0 0 0 0).tick
      { clk := false, n_reset := true, data := 0 }) = true :=
  (c4_err_iff_unsupported_fetch (mkFetch 0x300 0 0 0 0 0 0)
    { clk := false, n_reset := true, data := 0 } rfl).1.mpr
    ⟨rfl, rfl, rfl, by decide⟩

/-- C5 (bug evidence): run the program `A9 42 85 10` from reset (vector
0x0200), assert `n_reset` for two cycles exactly when the STA write cycle is
on the bus, then release.  On the first pre-vector cycle after release the
active micro-op is `Nop`, yet the bus still shows `rwb = 0` with outgoing
data 0x42: the reset branch never returns the pins to read mode, and nothing
does until the first fetch after the preamble.  The claim (and §4.1/§9 of the
spec) requires all six pre-vector cycles to be reads with no outgoing data. -/
theorem c5_write_survives_into_reset_preamble :
    (stateOf ((((resetCycles 2 W6502.new).next (runEnv c5Env 13)).next
        (resetCycles 2)).next (runEnv c5Env 1))).map
      (fun s => (s.outputs.rwb, s.outputs.data, s.active_uop)) =
    some (false, some 0x42, .Nop) := by
  decide

/-- C10: the decoder's unchecked 16-bit additions do not wrap at the top of
the address space, and the overflow branch of the embedding is reachable: with
both reset-vector bytes 0xFF the post-reset PC is 0xFFFF and the fetch cycle
shows `sync = 1` there (second conjunct), and decoding the two-byte opcode
0xA9 fetched at that PC computes PC+1 > 0xFFFF and lands in the overflow
branch (the Rust debug build panics on the `self.pc + 1` there). -/
theorem c10_pc_overflow_reachable :
    (resetCycles 2 W6502.new).next (runEnv c10Env 10) = .panic .overflow
    ∧ (stateOf ((resetCycles 2 W6502.new).next (runEnv c10Env 9))).map
        (fun s => (s.pc, s.outputs.sync)) = some (0xFFFF, true) := by
  decide

/-- C6 counterexample: decoding 0xA5 does NOT route the operand byte through
an internal scratch register.  First conjunct: the decoder enqueues
`Read(PC+1 → Acc)` then `Read(RegVal(Acc) → Acc)` — both micro-ops name the
accumulator, none of them `Scratch1`.  Second conjunct: running the `A5 40`
program two cycles (through the operand read), the accumulator itself holds
the operand 0x40 between the two data cycles while `scratch1` still holds its
prior value 0x77 — refuting "held in an internal scratch register (not the
accumulator)". -/
theorem c6_counterexample :
    (mkFetch 0x200 0xAA 0 0 0 0 0x77).decode_op 0xA5 =
      .ok { mkFetch 0x200 0xAA 0 0 0 0 0x77 with
            queue := [.Read (.Address 0x201) .Acc, .Read (.RegVal .Acc) .Acc],
            pc := 0x202 }
    ∧ ((ramStep (mkFetch 0x200 0xAA 0 0 0 0 0x77, c6Mem)).bind ramStep).map
        (fun p => (p.1.acc, p.1.scratch1)) = some (0x40, 0x77) := by
  exact ⟨rfl, by decide⟩

/-- C6 amended: decoding 0xA5 enqueues `Read(PC+1 → A)` then
`Read(RegVal(A) → A)`, so the operand byte is held in the accumulator itself
(scratch1 is untouched) between the two cycles; the observable behavior is as
claimed: with 0x99 stored at 0x0040 and program `A5 40`, the bus sequence is
fetch, a read of PC+1 = 0x201 (sync 0, read mode), then a read of 0x0040
(the address taken from the accumulator), and after the instruction completes
A = 0x99 with the next fetch at 0x202. -/
theorem c6_amended_lda_zpg_run :
    (ramStep (mkFetch 0x200 0xAA 0 0 0 0 0x77, c6Mem)).map
      (fun p => (p.1.outputs.address, p.1.outputs.rwb, p.1.outputs.sync)) =
      some (0x201, true, false)
    ∧ ((ramStep (mkFetch 0x200 0xAA 0 0 0 0 0x77, c6Mem)).bind ramStep).map
        (fun p => (p.1.outputs.address, p.1.outputs.rwb, p.1.outputs.sync)) =
      some (0x40, true, false)
    ∧ (((ramStep (mkFetch 0x200 0xAA 0 0 0 0 0x77, c6Mem)).bind ramStep).bind
        ramStep).map
        (fun p => (p.1.acc, p.1.outputs.address, p.1.outputs.sync)) =
      some (0x99, 0x202, true) := by
  refine ⟨by decide, by decide, by decide⟩

/-- C7 counterexample: from a state whose previous clock level is high and
whose active micro-op is `Read(Address 0x10 → X)` with X = 0, calling `tick`
again with the clock STILL HIGH does perform the falling-phase action: the
data byte 5 is written into X.  The claim says the falling-phase action runs
if and only if the supplied level is low, so X should have stayed 0. -/
theorem c7_counterexample :
    (stateOf (midRead.tick { clk := true, n_reset := true, data := 5 })).map
      W6502.x = some 5 := by
  decide

/-- C7 amended: a `tick` whose clock level equals the stored previous level is
a no-op edge-wise — the queue is not popped, `sync` is not touched, and the
active micro-op is unchanged — but it performs the falling-phase action of the
active micro-op regardless of whether that level is low or high; in
particular, repeated ticks at a high, unchanged clock level DO re-run the
falling-phase action (after a fetch this re-invokes the decoder, which then
trips its queue-empty assertion). -/
theorem c7_amended_no_edge_runs_falling_action (s : W6502) (i : Inputs)
    (h1 : i.n_reset = true) (h2 : i.clk = s.prev_clk) :
    s.tick i =
      match s.exec_uop s.active_uop false i.data with
      | .ok s2 => .ok { s2 with prev_clk := i.clk }
      | .error (.unsupported b) => .err s b
      | .error e => .panic e := by
  simp only [W6502.tick, h1, h2, Bool.not_and_self]
  rfl

/-- Witness for C7's amended theorem at a concrete state and input. -/
theorem c7_witness :
    midRead.tick { clk := true, n_reset := true, data := 7 } =
      .ok { midRead with x := 7 } := by
  have h := c7_amended_no_edge_runs_falling_action midRead
    { clk := true, n_reset := true, data := 7 } rfl rfl
  exact h.trans (by decide)

/-- C8 counterexample: with 0xEA at every address, the reset vector reads give
PC = 0xEAEA, the first NOP is fetched there (first conjunct: at the first
fetch cycle PC = 0xEAEA and `sync = 1`), so "the first NOP's successor" is
0xEAEB — but two NOP instructions later PC has reached 0xEAEC: the decoder
adds 1 to PC on every 0xEA it decodes, so PC does advance past the first
NOP's successor. -/
theorem c8_counterexample :
    (stateOf ((resetCycles 2 W6502.new).next (runEnv nopEnv 9))).map
        (fun s => (s.pc, s.outputs.sync)) = some (0xEAEA, true)
    ∧ (stateOf ((resetCycles 2 W6502.new).next (runEnv nopEnv 12))).map
        W6502.pc = some 0xEAEC
    ∧ 0xEAEB < 0xEAEC := by
  refine ⟨by decide, by decide, by decide⟩

/-- C8 amended: with 0xEA at every address, execution is an alternation of
fetch cycles (sync = 1, address = PC) and NOP stall cycles (sync = 0,
address = PC), but PC advances by one per NOP instruction: from any fetch
state at `pc` (with `pc + 1` in u16 range), one cycle yields the NOP stall
cycle at `pc + 1` — the stall reads past the opcode at the already-advanced
PC — and the next cycle yields the fetch state at `pc + 1` with all registers
unchanged.  So the alternation is as claimed while PC strictly increases
instead of staying at the first NOP's successor. -/
theorem c8_amended_nop_loop_alternates (s : W6502) (h1 : s.queue = [])
    (h2 : s.active_uop = .Fetch) (h3 : s.prev_clk = true)
    (h4 : s.outputs = { address := s.pc, data := none, rwb := true, sync := true })
    (h5 : s.pc + 1 ≤ 0xFFFF) :
    stepEnv nopEnv s =
      .ok (mkNopStall (s.pc + 1) s.acc s.x s.y s.sp s.flags s.scratch1)
    ∧ stepEnv nopEnv (mkNopStall (s.pc + 1) s.acc s.x s.y s.sp s.flags s.scratch1) =
      .ok (mkFetch (s.pc + 1) s.acc s.x s.y s.sp s.flags s.scratch1) := by
  constructor
  · obtain ⟨o, pclk, q, a, pc, acc, x, y, sp, fl, scr⟩ := s
    simp only at h1 h2 h3 h4 h5 ⊢
    subst h1 h2 h3 h4
    simp [stepEnv, nopEnv, W6502.cycle, W6502.tick, TickOut.next, W6502.exec_uop,
      W6502.decode_op, h5, mkNopStall, W6502.set_addr, Outputs.zero]
  · rfl

/-- `Nop` never touches the program counter. -/
lemma keepsPC_nop : uopKeepsPC .Nop := by
  intro st ph d s2 h
  simp only [W6502.exec_uop, Except.ok.injEq] at h
  subst h; rfl

/-- `Read` micro-ops never touch the program counter (either phase). -/
lemma keepsPC_read (src : Source) (reg : Register) : uopKeepsPC (.Read src reg) := by
  intro st ph d s2 h
  cases ph <;> simp only [W6502.exec_uop, Except.ok.injEq, Bool.false_eq_true,
    if_false, if_true, reduceIte] at h <;> subst h
  · cases reg <;> rfl
  · rfl

/-- `Write` micro-ops never touch the program counter. -/
lemma keepsPC_write (dst : Source) (val : Register) : uopKeepsPC (.Write dst val) := by
  intro st ph d s2 h
  simp only [W6502.exec_uop, Except.ok.injEq] at h
  subst h; rfl

/-- C3: for every supported opcode the decoder, run with the queue empty and
the pre-decode program counter in range, immediately sets PC to the pre-decode
PC plus the instruction's documented length (`instrLen`: 3 for 0x4C, 1 for
0xEA, 2 for the rest), and PC is not changed incrementally as operand bytes
are read on later cycles: for every opcode other than 0x4C each enqueued
micro-op leaves PC untouched on every later cycle (`uopKeepsPC`), and for
0x4C the enqueued micro-ops are exactly the two `ReadPC` vector-style reads
that replace PC with the jump target — a substitution from the data bus, not
an incremental advance. -/
theorem c3_decode_advances_pc_once (s : W6502) (c : Nat) (h1 : supported c = true)
    (hq : s.queue = []) (h2 : s.pc + 3 ≤ 0xFFFF) :
    ∃ s', s.decode_op c = .ok s' ∧ s'.pc = s.pc + instrLen c ∧
      (c ≠ 0x4C → ∀ u ∈ s'.queue, uopKeepsPC u) ∧
      (c = 0x4C → s'.queue = [.ReadPC true (s.pc + 1), .ReadPC false (s.pc + 2)]) := by
  have hb2 : s.pc + 2 ≤ 0xFFFF := by omega
  have hb1 : s.pc + 1 ≤ 0xFFFF := by omega
  simp [supported] at h1
  rcases h1 with rfl | rfl | rfl | rfl | rfl | rfl | rfl | rfl | rfl | rfl | rfl
  · -- 0x4C
    have hd : s.decode_op 0x4C = .ok { s with
        queue := [.ReadPC true (s.pc + 1), .ReadPC false (s.pc + 2)], pc := s.pc + 3 } := by
      simp [W6502.decode_op, hq, h2]
    exact ⟨_, hd, by simp [instrLen], fun hc => absurd rfl hc, fun _ => rfl⟩
  · -- 0x84
    have hd : s.decode_op 0x84 = .ok { s with
        queue := [.Read (.Address (s.pc + 1)) .Scratch1, .Write (.RegVal .Scratch1) .Y],
        pc := s.pc + 2 } := by
      simp [W6502.decode_op, hq, hb2]
    refine ⟨_, hd, by simp [instrLen], fun _ u hu => ?_, fun h => by norm_num at h⟩
    fin_cases hu
    · exact keepsPC_read _ _
    · exact keepsPC_write _ _
  · -- 0x85
    have hd : s.decode_op 0x85 = .ok { s with
        queue := [.Read (.Address (s.pc + 1)) .Scratch1, .Write (.RegVal .Scratch1) .Acc],
        pc := s.pc + 2 } := by
      simp [W6502.decode_op, hq, hb2]
    refine ⟨_, hd, by simp [instrLen], fun _ u hu => ?_, fun h => by norm_num at h⟩
    fin_cases hu
    · exact keepsPC_read _ _
    · exact keepsPC_write _ _
  · -- 0x86
    have hd : s.decode_op 0x86 = .ok { s with
        queue := [.Read (.Address (s.pc + 1)) .Scratch1, .Write (.RegVal .Scratch1) .X],
        pc := s.pc + 2 } := by
      simp [W6502.decode_op, hq, hb2]
    refine ⟨_, hd, by simp [instrLen], fun _ u hu => ?_, fun h => by norm_num at h⟩
    fin_cases hu
    · exact keepsPC_read _ _
    · exact keepsPC_write _ _
  · -- 0xA0
    have hd : s.decode_op 0xA0 = .ok { s with
        queue := [.Read (.Address (s.pc + 1)) .Y], pc := s.pc + 2 } := by
      simp [W6502.decode_op, hq, hb2]
    refine ⟨_, hd, by simp [instrLen], fun _ u hu => ?_, fun h => by norm_num at h⟩
    fin_cases hu
    exact keepsPC_read _ _
  · -- 0xA2
    have hd : s.decode_op 0xA2 = .ok { s with
        queue := [.Read (.Address (s.pc + 1)) .X], pc := s.pc + 2 } := by
      simp [W6502.decode_op, hq, hb2]
    refine ⟨_, hd, by simp [instrLen], fun _ u hu => ?_, fun h => by norm_num at h⟩
    fin_cases hu
    exact keepsPC_read _ _
  · -- 0xA4
    have hd : s.decode_op 0xA4 = .ok { s with
        queue := [.Read (.Address (s.pc + 1)) .Scratch1, .Read (.RegVal .Scratch1) .Y],
        pc := s.pc + 2 } := by
      simp [W6502.decode_op, hq, hb2]
    refine ⟨_, hd, by simp [instrLen], fun _ u hu => ?_, fun h => by norm_num at h⟩
    fin_cases hu
    · exact keepsPC_read _ _
    · exact keepsPC_read _ _
  · -- 0xA5
    have hd : s.decode_op 0xA5 = .ok { s with
        queue := [.Read (.Address (s.pc + 1)) .Acc, .Read (.RegVal .Acc) .Acc],
        pc := s.pc + 2 } := by
      simp [W6502.decode_op, hq, hb2]
    refine ⟨_, hd, by simp [instrLen], fun _ u hu => ?_, fun h => by norm_num at h⟩
    fin_cases hu
    · exact keepsPC_read _ _
    · exact keepsPC_read _ _
  · -- 0xA6
    have hd : s.decode_op 0xA6 = .ok { s with
        queue := [.Read (.Address (s.pc + 1)) .X, .Read (.RegVal .X) .X],
        pc := s.pc + 2 } := by
      simp [W6502.decode_op, hq, hb2]
    refine ⟨_, hd, by simp [instrLen], fun _ u hu => ?_, fun h => by norm_num at h⟩
    fin_cases hu
    · exact keepsPC_read _ _
    · exact keepsPC_read _ _
  · -- 0xA9
    have hd : s.decode_op 0xA9 = .ok { s with
        queue := [.Read (.Address (s.pc + 1)) .Acc], pc := s.pc + 2 } := by
      simp [W6502.decode_op, hq, hb2]
    refine ⟨_, hd, by simp [instrLen], fun _ u hu => ?_, fun h => by norm_num at h⟩
    fin_cases hu
    exact keepsPC_read _ _
  · -- 0xEA
    have hd : s.decode_op 0xEA = .ok { s with queue := [.Nop], pc := s.pc + 1 } := by
      simp [W6502.decode_op, hq, hb1]
    refine ⟨_, hd, by simp [instrLen], fun _ u hu => ?_, fun h => by norm_num at h⟩
    fin_cases hu
    exact keepsPC_nop

/-- Witness for C3 at the power-on state and opcode 0xA9. -/
theorem c3_witness :
    ((W6502.new.decode_op 0xA9).toOption.map W6502.pc) = some (0xcafe + 2) := by
  obtain ⟨s', hd, hpc, -, -⟩ :=
    c3_decode_advances_pc_once W6502.new 0xA9 (by decide) rfl (by decide)
  rw [hd]
  simp [Except.toOption, hpc, W6502.new, instrLen]

/-- C9: the STA/LDA zero-page round trip.  For every byte `b` and zero-page
address `z`, driving the CPU from a fetch state at 0x0200 with A = `b`
against a RAM environment (one that returns the last value stored at each
address) through the program `85 z A5 z` — STA zpg `z` then LDA zpg `z`,
six cycles in all — ends with A = `b`. -/
theorem c9_sta_lda_roundtrip (b z : Nat) ( _hb : b ≤ 0xFF) (hz : z ≤ 0xFF) :
    ((((((ramStep (mkFetch 0x200 b 0 0 0 0 0, c9Mem z)).bind ramStep).bind
        ramStep).bind ramStep).bind ramStep).bind ramStep).map
      (fun p => p.1.acc) = some b := by
  have h202 : ¬((0x202 : Nat) = z) := by omega
  have h203 : ¬((0x203 : Nat) = z) := by omega
  have h1 : ramStep (mkFetch 0x200 b 0 0 0 0 0, c9Mem z) = some
      (⟨⟨0x201, none, true, false⟩, true, [.Write (.RegVal .Scratch1) .Acc],
        .Read (.Address 0x201) .Scratch1, 0x202, b, 0, 0, 0, 0, 0⟩, c9Mem z) := by
    simp [ramStep, W6502.cycle, W6502.tick, W6502.exec_uop, W6502.decode_op,
      mkFetch, c9Mem, commitWrite, TickOut.next, W6502.set_addr, W6502.set_data,
      W6502.set_reg, W6502.get_reg, W6502.source, Outputs.zero, memUpdate]
  have h2 : ramStep (⟨⟨0x201, none, true, false⟩, true,
      [.Write (.RegVal .Scratch1) .Acc],
      .Read (.Address 0x201) .Scratch1, 0x202, b, 0, 0, 0, 0, 0⟩, c9Mem z) = some
      (⟨⟨z, some b, false, false⟩, true, [], .Write (.RegVal .Scratch1) .Acc,
        0x202, b, 0, 0, 0, 0, z⟩, memUpdate (c9Mem z) z b) := by
    simp [ramStep, W6502.cycle, W6502.tick, W6502.exec_uop, W6502.decode_op,
      c9Mem, commitWrite, TickOut.next, W6502.set_addr, W6502.set_data,
      W6502.set_reg, W6502.get_reg, W6502.source, Outputs.zero, memUpdate]
  have h3 : ramStep (⟨⟨z, some b, false, false⟩, true, [],
      .Write (.RegVal .Scratch1) .Acc, 0x202, b, 0, 0, 0, 0, z⟩,
      memUpdate (c9Mem z) z b) = some
      (⟨⟨0x202, none, true, true⟩, true, [], .Fetch, 0x202, b, 0, 0, 0, 0, z⟩,
        memUpdate (c9Mem z) z b) := by
    simp [ramStep, W6502.cycle, W6502.tick, W6502.exec_uop, W6502.decode_op,
      c9Mem, commitWrite, TickOut.next, W6502.set_addr, W6502.set_data,
      W6502.set_reg, W6502.get_reg, W6502.source, Outputs.zero, memUpdate]
  have h4 : ramStep (⟨⟨0x202, none, true, true⟩, true, [], .Fetch, 0x202, b,
      0, 0, 0, 0, z⟩, memUpdate (c9Mem z) z b) = some
      (⟨⟨0x203, none, true, false⟩, true, [.Read (.RegVal .Acc) .Acc],
        .Read (.Address 0x203) .Acc, 0x204, b, 0, 0, 0, 0, z⟩,
        memUpdate (c9Mem z) z b) := by
    simp [ramStep, W6502.cycle, W6502.tick, W6502.exec_uop, W6502.decode_op,
      c9Mem, commitWrite, TickOut.next, W6502.set_addr, W6502.set_data,
      W6502.set_reg, W6502.get_reg, W6502.source, Outputs.zero, memUpdate, h202]
  have h5 : ramStep (⟨⟨0x203, none, true, false⟩, true,
      [.Read (.RegVal .Acc) .Acc], .Read (.Address 0x203) .Acc, 0x204, b,
      0, 0, 0, 0, z⟩, memUpdate (c9Mem z) z b) = some
      (⟨⟨z, none, true, false⟩, true, [], .Read (.RegVal .Acc) .Acc, 0x204, z,
        0, 0, 0, 0, z⟩, memUpdate (c9Mem z) z b) := by
    simp [ramStep, W6502.cycle, W6502.tick, W6502.exec_uop, W6502.decode_op,
      c9Mem, commitWrite, TickOut.next, W6502.set_addr, W6502.set_data,
      W6502.set_reg, W6502.get_reg, W6502.source, Outputs.zero, memUpdate, h203]
  have h6 : ramStep (⟨⟨z, none, true, false⟩, true, [],
      .Read (.RegVal .Acc) .Acc, 0x204, z, 0, 0, 0, 0, z⟩,
      memUpdate (c9Mem z) z b) = some
      (⟨⟨0x204, none, true, true⟩, true, [], .Fetch, 0x204, b, 0, 0, 0, 0, z⟩,
        memUpdate (c9Mem z) z b) := by
    simp [ramStep, W6502.cycle, W6502.tick, W6502.exec_uop, W6502.decode_op,
      c9Mem, commitWrite, TickOut.next, W6502.set_addr, W6502.set_data,
      W6502.set_reg, W6502.get_reg, W6502.source, Outputs.zero, memUpdate]
  rw [h1, Option.some_bind, h2, Option.some_bind, h3, Option.some_bind,
    h4, Option.some_bind, h5, Option.some_bind, h6]
  rfl

/-- Witness for C9 at b = 0x42, z = 0x10. -/
theorem c9_witness :
    ((((((ramStep (mkFetch 0x200 0x42 0 0 0 0 0, c9Mem 0x10)).bind ramStep).bind
        ramStep).bind ramStep).bind ramStep).bind ramStep).map
      (fun p => p.1.acc) = some 0x42 :=
  c9_sta_lda_roundtrip 0x42 0x10 (by norm_num) (by norm_num)

/-- Witness for C8's amended theorem at a concrete fetch state. -/
theorem c8_witness :
    stepEnv nopEnv (mkFetch 0x1000 1 2 3 4 5 6) =
      .ok (mkNopStall (0x1000 + 1) 1 2 3 4 5 6)
    ∧ stepEnv nopEnv (mkNopStall (0x1000 + 1) 1 2 3 4 5 6) =
      .ok (mkFetch (0x1000 + 1) 1 2 3 4 5 6) :=
  c8_amended_nop_loop_alternates (mkFetch 0x1000 1 2 3 4 5 6)
    rfl rfl rfl rfl (by norm_num [mkFetch])

end M6502
